import Mathlib

/-!
Verification of the data-normalization and authentication contract of a small
restaurant-ordering backend (Express + Supabase, source file src/api/index.js).

Modelling conventions for the shallow embedding of the JavaScript source:
* an absent / null / undefined field is `none`; a present field is `some v`;
* JavaScript truthiness on the field types that actually occur is explicit:
  the empty string and the number 0 are falsy, every other value is truthy
  (helpers jsOrStr / jsOrNat / jsOrInt / jsOr below model the `a || d` idiom);
* stock quantities are natural numbers (the spec fixes them as non-negative
  integers), money amounts and row ids are integers;
* `Array.prototype.sort` is stable (ECMAScript 2019); every stable sort
  agrees on a comparator that induces a total preorder, so it is embedded as
  a stable insertion sort with the comparator translated from the source;
* `parseFloat` applied to the stored `total` value is abstracted as an
  `Option Int` field: `some n` is a value that parses to the number n,
  `none` is a value whose parse yields NaN.
-/

namespace Tapioca

/-- JS `a || d` for an optional string: the empty string is falsy. -/
def jsOrStr (a : Option String) (d : String) : String :=
  match a with
  | some s => if s = "" then d else s
  | none => d

/-- JS `a || d` for an optional non-negative integer: 0 is falsy. -/
def jsOrNat (a : Option Nat) (d : Nat) : Nat :=
  match a with
  | some n => if n = 0 then d else n
  | none => d

/-- JS `a || d` for an optional integer: 0 is falsy. -/
def jsOrInt (a : Option Int) (d : Int) : Int :=
  match a with
  | some n => if n = 0 then d else n
  | none => d

/-- JS `a || b` where both operands are optional strings (the result may
itself be undefined, namely when a is falsy and b is absent). -/
def jsOr (a b : Option String) : Option String :=
  match a with
  | some s => if s = "" then b else some s
  | none => b

/-- One entry of a legacy `colors[].sizes` array: `{stock}`. -/
structure RawSize where
  stock : Option Nat := none
deriving DecidableEq

/-- One entry of a legacy product `colors` array. -/
structure RawColor where
  name : Option String := none
  image : Option String := none
  sizes : Option (List RawSize) := none
  quantity : Option Nat := none
  description : Option String := none
deriving DecidableEq

/-- One entry of a product `sabores` (flavors) array. -/
structure RawSabor where
  name : Option String := none
  image : Option String := none
  quantity : Option Nat := none
  description : Option String := none
deriving DecidableEq

/-- A product as it arrives at `normalizeProducts`: the fields the function
inspects (`colors`, `sabores`) plus the pass-through fields used elsewhere
by the handlers.  `colors = some l` / `sabores = some l` mean the field is a
(truthy) array, matching the `product.colors && Array.isArray(product.colors)`
guards of the source. -/
structure RawProduct where
  id : Option Int := none
  title : Option String := none
  category : Option String := none
  price : Option Int := none
  description : Option String := none
  status : Option String := none
  display_order : Option Int := none
  colors : Option (List RawColor) := none
  sabores : Option (List RawSabor) := none
deriving DecidableEq

/-- Conversion of one legacy color into a flavor, from the `colors` branch of
`normalizeProducts`: quantity is the sum of `sizes[].stock` (missing stock
counts 0) when `sizes` is an array, otherwise the direct `quantity || 0`. -/
def convColor (c : RawColor) : RawSabor :=
  { name := some (jsOrStr c.name "Sem nome")
    image := some (jsOrStr c.image "https://via.placeholder.com/400x300")
    quantity := some (match c.sizes with
      | some szs => szs.foldl (fun t s => t + jsOrNat s.stock 0) 0
      | none => jsOrNat c.quantity 0)
    description := some (jsOrStr c.description "") }

/-- The per-flavor default filling of the `sabores` branch of
`normalizeProducts`. -/
def convSabor (s : RawSabor) : RawSabor :=
  { name := some (jsOrStr s.name "Sem nome")
    image := some (jsOrStr s.image "https://via.placeholder.com/400x300")
    quantity := some (jsOrNat s.quantity 0)
    description := some (jsOrStr s.description "") }

/-- The stock a flavor entry is judged by in the sort comparator:
`a.quantity || 0`. -/
def qtyOf (s : RawSabor) : Nat := jsOrNat s.quantity 0

/-- The comparator passed to `sort` in `normalizeProducts`: flavors with
stock come first, ties keep the original order. -/
def saborCmp (a b : RawSabor) : Int :=
  if 0 < qtyOf a ∧ qtyOf b = 0 then -1
  else if qtyOf a = 0 ∧ 0 < qtyOf b then 1
  else 0

/-- Stable insertion into an already processed list: the new element goes
after every element that does not compare strictly greater than it. -/
def insertCmp (cmp : α → α → Int) (x : α) : List α → List α
  | [] => [x]
  | y :: ys => if cmp x y < 0 then x :: y :: ys else y :: insertCmp cmp x ys

/-- Stable sort (insertion sort), the embedding of the (stable, per
ECMAScript 2019) `Array.prototype.sort` call of the source. -/
def jsSortStable (cmp : α → α → Int) (l : List α) : List α :=
  l.foldl (fun acc x => insertCmp cmp x acc) []

/-- The per-element body of `normalizeProducts`. -/
def normalizeProduct (p : RawProduct) : RawProduct :=
  match p.colors with
  | some cols => { p with sabores := some (cols.map convColor) }
  | none =>
    match p.sabores with
    | some sabs =>
      { p with sabores := some ((jsSortStable saborCmp sabs).map convSabor) }
    | none => p

/-- The function `normalizeProducts`: non-array input gives the empty list,
otherwise the element-wise normalization. -/
def normalizeProducts (ps : Option (List RawProduct)) : List RawProduct :=
  match ps with
  | some l => l.map normalizeProduct
  | none => []

/-- A category as it arrives at `normalizeCategories`: a bare string, an
object (with optional id / name / description), or anything else (null,
number, object without the fields), which the function drops. -/
inductive RawCat where
  | str (s : String)
  | obj (id name description : Option String)
  | other
deriving DecidableEq

/-- The expression `cat.charAt(0).toUpperCase() + cat.slice(1)` (ASCII
upper-casing). -/
def capitalize (s : String) : String :=
  match s.data with
  | [] => ""
  | c :: cs => String.mk (c.toUpper :: cs)

/-- The per-element body of `normalizeCategories`; `none` is the null that
the trailing filter removes.  An object whose id is absent or the empty
string (falsy) is dropped. -/
def normCat (c : RawCat) : Option RawCat :=
  match c with
  | .str s =>
    some (.obj (some s) (some (capitalize s)) (some ("Categoria de " ++ s)))
  | .obj i n d =>
    match i with
    | some id0 =>
      if id0 = "" then none
      else
        some (.obj (some id0) (some (jsOrStr n (capitalize id0)))
          (some (jsOrStr d ("Categoria de " ++ jsOrStr n id0))))
    | none => none
  | .other => none

/-- The function `normalizeCategories`: map the per-element body, drop the
nulls. -/
def normalizeCategories (cs : Option (List RawCat)) : List RawCat :=
  match cs with
  | some l => l.filterMap normCat
  | none => []

/-- An order as it arrives at `normalizeOrders`, with both the snake_case
storage fields and the camelCase external fields.  `total` abstracts the
parseFloat coercion (see the file header). -/
structure RawOrder where
  id : Option Int := none
  date : Option String := none
  time : Option String := none
  customer_name : Option String := none
  customerName : Option String := none
  customer_phone : Option String := none
  customerPhone : Option String := none
  items : Option (List String) := none
  total : Option Int := none
  payment_method : Option String := none
  paymentMethod : Option String := none
  status : Option String := none
  created_at : Option String := none
  createdAt : Option String := none
deriving DecidableEq

/-- The per-element body of `normalizeOrders`. -/
def normOrder (o : RawOrder) : RawOrder :=
  { id := o.id
    date := o.date
    time := o.time
    customer_name := none
    customerName := jsOr o.customer_name o.customerName
    customer_phone := none
    customerPhone := jsOr o.customer_phone o.customerPhone
    items := some (o.items.getD [])
    total := some (o.total.getD 0)
    payment_method := none
    paymentMethod := jsOr o.payment_method o.paymentMethod
    status := some (jsOrStr o.status "pending")
    created_at := none
    createdAt := jsOr o.created_at o.createdAt }

/-- The function `normalizeOrders`: non-array input gives the empty list. -/
def normalizeOrders (os : Option (List RawOrder)) : List RawOrder :=
  match os with
  | some l => l.map normOrder
  | none => []

/-- UTF-8 encoding of one code point (the bytes Buffer.from produces). -/
def utf8Char (n : Nat) : List Nat :=
  if n < 128 then [n]
  else if n < 2048 then [192 + n / 64, 128 + n % 64]
  else if n < 65536 then [224 + n / 4096, 128 + n / 64 % 64, 128 + n % 64]
  else [240 + n / 262144, 128 + n / 4096 % 64, 128 + n / 64 % 64, 128 + n % 64]

/-- The UTF-8 bytes of a string. -/
def utf8Bytes (s : String) : List Nat :=
  (s.data.map (fun c => utf8Char c.toNat)).flatten

/-- The standard base64 alphabet. -/
def b64Digit (n : Nat) : Char :=
  "ABCDEFGHIJKLMNOPQRSTUVWXYZabcdefghijklmnopqrstuvwxyz0123456789+/".data.getD n '?'

/-- Standard base64 encoding with padding (what Buffer.toString base64
does). -/
def b64Encode : List Nat → List Char
  | [] => []
  | [a] => [b64Digit (a / 4), b64Digit (a % 4 * 16), '=', '=']
  | [a, b] => [b64Digit (a / 4), b64Digit (a % 4 * 16 + b / 16), b64Digit (b % 16 * 4), '=']
  | a :: b :: c :: rest =>
    b64Digit (a / 4) :: b64Digit (a % 4 * 16 + b / 16) ::
      b64Digit (b % 16 * 4 + c / 64) :: b64Digit (c % 64) :: b64Encode rest

/-- The function `simpleEncrypt`: base64-encode the text, then reverse the
character sequence. -/
def simpleEncrypt (text : String) : String :=
  String.mk ((b64Encode (utf8Bytes text)).reverse)

/-- Prefix test on character lists (self-contained executable helper). -/
def hasPrefixChars : List Char → List Char → Bool
  | [], _ => true
  | _ :: _, [] => false
  | p :: ps, c :: cs => p == c && hasPrefixChars ps cs

/-- Infix test on character lists. -/
def hasInfixChars (pat : List Char) : List Char → Bool
  | [] => hasPrefixChars pat []
  | c :: cs => hasPrefixChars pat (c :: cs) || hasInfixChars pat cs

/-- JS String.prototype.includes. -/
def strIncludes (s sub : String) : Bool := hasInfixChars sub.data s.data

/-- A row of the admin_credentials table. -/
structure CredRow where
  username : String := "admin"
  password : String := ""
  encrypted_password : String := ""
deriving DecidableEq

/-- Outcome of the single-row credentials lookup: an error (with message and
code, as supabase-js reports it; a query with no rows yields the error code
PGRST116), the defensive data-null case, or a found row. -/
inductive Lookup where
  | lerr (msg code : String)
  | lnone
  | lfound (row : CredRow)
deriving DecidableEq

/-- The responses the login handler can produce. -/
inductive LoginResponse where
  | badRequest (msg : String)
  | ok (token : String) (username : String)
  | unauthorized (msg : String)
deriving DecidableEq

/-- The POST /api/auth/login handler, as a function of the request fields
and the outcome of the credentials lookup.  An absent username or password
field is modelled by the empty string (both are falsy). -/
def loginHandler (username password : String) (lk : Lookup) : LoginResponse :=
  if username = "" ∨ password = "" then
    .badRequest "Usuário e senha são obrigatórios"
  else
    match lk with
    | .lerr msg code =>
      if strIncludes msg "does not exist" || code == "PGRST116" then
        if username == "admin" && password == "admin123" then
          .ok "authenticated_admin_token" "admin"
        else .unauthorized "Credenciais inválidas"
      else .unauthorized "Erro no sistema"
    | .lnone => .unauthorized "Credenciais inválidas"
    | .lfound row =>
      if simpleEncrypt password == row.encrypted_password
          || password == row.password then
        .ok "authenticated_admin_token" username
      else .unauthorized "Credenciais inválidas"

/-- The function `checkAuth`: the token equals the single literal constant. -/
def checkAuth (token : String) : Bool := token == "authenticated_admin_token"

/-- JS String.prototype.replace with an empty replacement: remove the first
occurrence of the pattern. -/
def stripFirstOcc (pat : List Char) : List Char → List Char
  | [] => []
  | c :: cs =>
    if hasPrefixChars pat (c :: cs) then (c :: cs).drop pat.length
    else c :: stripFirstOcc pat cs

/-- The token the handlers extract from the Authorization header. -/
def bearerToken (h : String) : String :=
  String.mk (stripFirstOcc "Bearer ".data h.data)

/-- The auth-header guard shared by the admin handlers:
a missing or empty header is falsy, otherwise checkAuth decides. -/
def authorized (h : Option String) : Bool :=
  match h with
  | none => false
  | some hd => if hd = "" then false else checkAuth (bearerToken hd)

/-- A row of the products table. -/
structure ProdRow where
  id : Int := 0
  title : Option String := none
  category : Option String := none
  price : Option Int := none
  description : Option String := none
  status : Option String := none
  sabores : Option (List RawSabor) := none
  display_order : Option Int := none
deriving DecidableEq

/-- A row of the categories table. -/
structure CatRow where
  id : String := ""
  name : String := ""
  description : String := ""
deriving DecidableEq

/-- The store state the modelled handlers touch: the two tables plus the
counter from which inserted product rows get their store-assigned ids. -/
structure DB where
  products : List ProdRow := []
  categories : List CatRow := []
  nextId : Int := 1
deriving DecidableEq

/-- A response carrying only status and messages (used by the write
handlers). -/
structure SimpleResp where
  status : Nat := 200
  error : Option String := none
  message : Option String := none
deriving DecidableEq

/-- The POST /api/categories/delete handler on an error-free store: check
auth, validate categoryId, reassign every product of the category to
"default" (only if any exist; a no-op otherwise), then delete the category
row. -/
def deleteCategoryHandler (h : Option String) (categoryId : Option String)
    (db : DB) : SimpleResp × DB :=
  if !(authorized h) then
    ({ status := 401, error := some "Não autorizado" }, db)
  else
    match categoryId with
    | none => ({ status := 400, error := some "ID da categoria é obrigatório" }, db)
    | some cid =>
      if cid = "" then
        ({ status := 400, error := some "ID da categoria é obrigatório" }, db)
      else
        let inCat := db.products.filter (fun p => p.category == some cid)
        let prods := if 0 < inCat.length then
            db.products.map (fun p =>
              if p.category == some cid then { p with category := some "default" } else p)
          else db.products
        let cats := db.categories.filter (fun c => !(c.id == cid))
        let msg := "Categoria excluída com sucesso! " ++ toString inCat.length
          ++ " produtos foram movidos para categoria padrão."
        ({ status := 200, message := some msg },
          { db with products := prods, categories := cats })

/-- The column projection the bulk product save inserts for one normalized
product. -/
def toInsertRow (nid : Int) (p : RawProduct) : ProdRow :=
  { id := nid, title := p.title, category := p.category, price := p.price,
    description := p.description, status := p.status, sabores := p.sabores,
    display_order := some (jsOrInt p.display_order 0) }

/-- Bulk insert with sequential store-assigned ids. -/
def assignIds (n : Int) : List RawProduct → List ProdRow
  | [] => []
  | p :: ps => toInsertRow n p :: assignIds (n + 1) ps

/-- The POST /api/products handler on an error-free store: check auth,
normalize the payload, delete every row whose id is not 0 (the
delete().neq(id, 0) call), then bulk-insert the normalized set if it is
non-empty. -/
def saveProductsHandler (h : Option String) (input : Option (List RawProduct))
    (db : DB) : SimpleResp × DB :=
  if !(authorized h) then
    ({ status := 401, error := some "Não autorizado" }, db)
  else
    let norm := normalizeProducts input
    let kept := db.products.filter (fun r => !(r.id != 0))
    if 0 < norm.length then
      ({ status := 200, message := some (toString norm.length ++ " produtos salvos") },
        { db with products := kept ++ assignIds db.nextId norm,
                  nextId := db.nextId + norm.length })
    else
      ({ status := 200, message := some "0 produtos salvos" },
        { db with products := kept })

/-- The data columns of a product row, without the store-assigned id. -/
def projRow (r : ProdRow) :
    Option String × Option String × Option Int × Option String × Option String
      × Option (List RawSabor) × Option Int :=
  (r.title, r.category, r.price, r.description, r.status, r.sabores, r.display_order)

/-- The same columns as the bulk insert writes them for one normalized
product. -/
def toRowData (p : RawProduct) :
    Option String × Option String × Option Int × Option String × Option String
      × Option (List RawSabor) × Option Int :=
  (p.title, p.category, p.price, p.description, p.status, p.sabores,
    some (jsOrInt p.display_order 0))

/-- Result of one store call in the read/insert handlers. -/
inductive StoreResult (α : Type) where
  | ok (data : α)
  | err (msg : String)
deriving DecidableEq

/-- Truthiness of an optional string field. -/
def truthyStr (a : Option String) : Bool :=
  match a with
  | some s => !(s == "")
  | none => false

/-- The GET /api/products response body. -/
structure ProductsResp where
  status : Nat := 200
  error : Option String := none
  products : List RawProduct := []
deriving DecidableEq

/-- The sample flavor of the first fallback product. -/
def sampleSaborBeer : RawSabor :=
  { name := some "Long Neck",
    image := some "https://via.placeholder.com/400x300/8B4513/FFFFFF?text=🍺",
    quantity := some 50, description := some "Garrafa 330ml" }

/-- The sample flavor of the second fallback product. -/
def sampleSaborFries : RawSabor :=
  { name := some "Média",
    image := some "https://via.placeholder.com/400x300/8B4513/FFFFFF?text=🍟",
    quantity := some 20, description := some "Porção para 2 pessoas" }

/-- The sample flavor of the empty-table fallback product. -/
def sampleSaborTest : RawSabor :=
  { name := some "Long Neck",
    image := some "https://via.placeholder.com/400x300/8B4513/FFFFFF?text=🍺",
    quantity := some 10, description := some "Garrafa de teste" }

/-- The sample products returned when the products table does not exist. -/
def sampleNoTable : List RawProduct :=
  [{ id := some 1, title := some "Cerveja Heineken", category := some "cerveja",
     price := some 12, description := some "Cerveja premium importada",
     sabores := some [sampleSaborBeer],
     status := some "active", display_order := some 1 },
   { id := some 2, title := some "Porção de Batata Frita", category := some "petisco",
     price := some 25, description := some "Porção de batata frita crocante",
     sabores := some [sampleSaborFries],
     status := some "active", display_order := some 2 }]

/-- The sample product returned when the products table is empty. -/
def sampleEmptyDb : List RawProduct :=
  [{ id := some 1, title := some "Cerveja de Teste", category := some "cerveja",
     price := some 10, description := some "Cerveja de exemplo para teste",
     sabores := some [sampleSaborTest],
     status := some "active", display_order := some 1 }]

/-- The GET /api/products handler as a function of the select outcome: a
missing table and an empty table fall back to sample data, any other store
error is answered with an OK response holding an empty list, and real rows
are normalized. -/
def getProductsHandler (r : StoreResult (List RawProduct)) : ProductsResp :=
  match r with
  | .err msg =>
    if strIncludes msg "does not exist" then { products := sampleNoTable }
    else { products := [] }
  | .ok ps =>
    if ps.length = 0 then { products := sampleEmptyDb }
    else { products := normalizeProducts (some ps) }

/-- The POST /api/orders response body. -/
structure OrderPostResp where
  status : Nat := 200
  error : Option String := none
  success : Bool := false
  message : Option String := none
  orderId : Option Int := none
deriving DecidableEq

/-- The POST /api/orders handler as a function of the request body and of
the insert outcome (the store-assigned id on success): missing orderData or
falsy customerName is a 400, an insert error is thrown and caught as a 500
whose message is the fixed prefix plus the store error message. -/
def postOrdersHandler (orderData : Option RawOrder) (ins : StoreResult Int) :
    OrderPostResp :=
  match orderData with
  | none => { status := 400, error := some "Dados do pedido inválidos" }
  | some od =>
    if !(truthyStr od.customerName) then
      { status := 400, error := some "Dados do pedido inválidos" }
    else
      match ins with
      | .err msg => { status := 500, error := some ("Erro ao salvar pedido: " ++ msg) }
      | .ok nid =>
        { status := 200, success := true, message := some "Pedido registrado",
          orderId := some nid }

/-- The GET /api/categories response body. -/
structure CategoriesResp where
  status : Nat := 200
  error : Option String := none
  categories : List RawCat := []
deriving DecidableEq

/-- The sample categories returned when the categories table does not
exist. -/
def sampleCatsNoTable : List RawCat :=
  [.obj (some "cerveja") (some "Cervejas")
    (some "Cervejas de diversos tipos e marcas"),
   .obj (some "refrigerante") (some "Refrigerantes")
    (some "Refrigerantes e bebidas não alcoólicas"),
   .obj (some "petisco") (some "Petiscos")
    (some "Petiscos e acompanhamentos")]

/-- The sample category returned when the categories table is empty. -/
def sampleCatsEmptyDb : List RawCat :=
  [.obj (some "cerveja") (some "Cervejas") (some "Cervejas diversas")]

/-- The GET /api/categories handler as a function of the select outcome: a
missing table and an empty table fall back to sample data, any other store
error is answered with an OK response holding an empty list, and real rows
are normalized. -/
def getCategoriesHandler (r : StoreResult (List RawCat)) : CategoriesResp :=
  match r with
  | .err msg =>
    if strIncludes msg "does not exist" then { categories := sampleCatsNoTable }
    else { categories := [] }
  | .ok cs =>
    if cs.length = 0 then { categories := sampleCatsEmptyDb }
    else { categories := normalizeCategories (some cs) }

/-- The GET /api/orders response body. -/
structure OrdersResp where
  status : Nat := 200
  error : Option String := none
  orders : List RawOrder := []
deriving DecidableEq

/-- The GET /api/orders handler as a function of the select outcome: every
store error (the source tests the missing-table class but answers the same
empty list either way) is an OK response with no orders, real rows are
normalized. -/
def getOrdersHandler (r : StoreResult (List RawOrder)) : OrdersResp :=
  match r with
  | .err msg =>
    if strIncludes msg "does not exist" then { orders := [] }
    else { orders := [] }
  | .ok os => { orders := normalizeOrders (some os) }

/-- A flavor entry counts as available when its (defaulted) quantity is
positive; this is the two-class ordering the comparator induces. -/
def isAvail (s : RawSabor) : Bool := !(qtyOf s == 0)

/-- The adjacent-pair availability invariant exactly as the spec words it:
no sold-out flavor is immediately followed by an available one. -/
def adjacentOk : List RawSabor → Bool
  | a :: b :: rest => (!(qtyOf a == 0 && decide (0 < qtyOf b))) && adjacentOk (b :: rest)
  | _ => true

/-- Written after the spec for the refinement statement of claim C1: the
stable availability partition of a flavors list (available first, sold-out
after, input order kept inside each class). -/
def specAvailFirst (l : List RawSabor) : List RawSabor :=
  l.filter isAvail ++ l.filter (fun s => !(isAvail s))

/-- The claim C1 counterexample input: a product carrying both a colors
array (sold-out color before available color) and a sabores array. -/
def c1cexProduct : RawProduct :=
  { colors := some [{ quantity := some 0 }, { quantity := some 2 }], sabores := some [] }

/-- Witness data for claim C1: a sold-out flavor. -/
def c1wZero : RawSabor := { name := some "esgotado", quantity := some 0 }

/-- Witness data for claim C1: an available flavor. -/
def c1wPos : RawSabor := { name := some "disponivel", quantity := some 7 }

/-- Witness input for claim C1. -/
def c1wProduct : RawProduct := { sabores := some [c1wZero, c1wPos] }

/-- The Red color of the spec example of claim C2. -/
def c2redColor : RawColor :=
  { name := some "Red", sizes := some [{ stock := some 3 }, { stock := some 2 }] }

/-- The flavor the spec example of claim C2 expects. -/
def c2redFlavor : RawSabor :=
  { name := some "Red", image := some "https://via.placeholder.com/400x300",
    quantity := some 5, description := some "" }

/-- Claim C10 data: a color with no stock. -/
def c10zeroColor : RawColor := { name := some "Zero" }

/-- Claim C10 data: a color with stock 5. -/
def c10posColor : RawColor := { name := some "Pos", quantity := some 5 }

/-- Witness input for claim C10. -/
def c10wProduct : RawProduct := { colors := some [c10zeroColor, c10posColor] }

/-- Witness data for claim C5: the bootstrap credential row. -/
def c5wRow : CredRow :=
  { username := "admin", password := "admin123",
    encrypted_password := simpleEncrypt "admin123" }

/-- The claim C9 counterexample input: snake_case name present but empty,
camelCase name present and non-empty. -/
def c9cexOrder : RawOrder := { customer_name := some "", customerName := some "Bob" }

/-- Witness input for claim C9. -/
def c9wOrder : RawOrder :=
  { customer_name := some "Ana", customerName := some "Outro", total := some 7 }

/-- The claim C6 counterexample store: one product in the category named
default, and a category row whose id is default. -/
def c6db : DB :=
  { products := [{ id := 1, title := some "Cerveja", category := some "default" }],
    categories := [{ id := "default", name := "Default", description := "d" }] }

/-- Witness store for claim C6: two products referencing the category to be
deleted, plus one unrelated category. -/
def c6wdb : DB :=
  { products := [{ id := 1, category := some "sucos" },
                 { id := 2, category := some "sucos" }],
    categories := [{ id := "sucos", name := "Sucos", description := "s" },
                   { id := "outra", name := "Outra", description := "o" }] }

/-- The claim C7 counterexample row: a pre-existing product row with id 0,
which delete().neq(id, 0) does not remove. -/
def c7ghostRow : ProdRow := { id := 0, title := some "ghost" }

/-- The claim C7 counterexample store. -/
def c7db : DB := { products := [c7ghostRow] }

/-- Witness store for claim C7: one old row with a non-zero id. -/
def c7wdb : DB := { products := [{ id := 5, title := some "antigo" }] }

/-- Witness payload for claim C7. -/
def c7wInput : List RawProduct := [{ title := some "novo", price := some 10 }]

/-- Witness order for claim C8: a valid order body. -/
def c8wOrder : RawOrder := { customerName := some "Maria" }

theorem jsOrNat_some_zero (n : Nat) : jsOrNat (some n) 0 = n := by
  simp only [jsOrNat]
  split <;> simp_all

theorem jsOrStr_some_self_empty (x : String) : jsOrStr (some x) "" = x := by
  simp only [jsOrStr]
  split <;> simp_all

theorem jsOrStr_ne_empty (a : Option String) (d : String) (hd : d ≠ "") :
    jsOrStr a d ≠ "" := by
  cases a with
  | none => exact hd
  | some s =>
    simp only [jsOrStr]
    split
    · exact hd
    · assumption

theorem jsOrStr_some_stable (a : Option String) (d : String) (hd : d ≠ "") :
    jsOrStr (some (jsOrStr a d)) d = jsOrStr a d := by
  have h := jsOrStr_ne_empty a d hd
  show (if jsOrStr a d = "" then d else jsOrStr a d) = jsOrStr a d
  rw [if_neg h]

theorem jsOr_none (b : Option String) : jsOr none b = b := rfl

theorem isAvail_true_iff (s : RawSabor) : isAvail s = true ↔ qtyOf s ≠ 0 := by
  simp [isAvail]

theorem isAvail_false_iff (s : RawSabor) : isAvail s = false ↔ qtyOf s = 0 := by
  simp [isAvail]

theorem qtyOf_convSabor (s : RawSabor) : qtyOf (convSabor s) = qtyOf s := by
  show jsOrNat (some (jsOrNat s.quantity 0)) 0 = jsOrNat s.quantity 0
  exact jsOrNat_some_zero _

theorem isAvail_convSabor (s : RawSabor) : isAvail (convSabor s) = isAvail s := by
  simp [isAvail, qtyOf_convSabor]

theorem saborCmp_avail_avail (a b : RawSabor) (ha : isAvail a = true)
    (hb : isAvail b = true) : saborCmp a b = 0 := by
  rw [isAvail_true_iff] at ha hb
  simp [saborCmp, ha, hb]

theorem saborCmp_avail_unavail (a b : RawSabor) (ha : isAvail a = true)
    (hb : isAvail b = false) : saborCmp a b = -1 := by
  rw [isAvail_true_iff] at ha
  rw [isAvail_false_iff] at hb
  simp [saborCmp, hb, Nat.pos_of_ne_zero ha]

theorem saborCmp_unavail_not_lt (a b : RawSabor) (ha : isAvail a = false) :
    ¬ saborCmp a b < 0 := by
  rw [isAvail_false_iff] at ha
  simp only [saborCmp, ha]
  split
  · omega
  · split <;> omega

theorem insertCmp_append_of_forall (cmp : α → α → Int) (x : α) (l : List α)
    (h : ∀ y ∈ l, ¬ cmp x y < 0) : insertCmp cmp x l = l ++ [x] := by
  induction l with
  | nil => rfl
  | cons y ys ih =>
    simp only [insertCmp]
    rw [if_neg (h y (List.mem_cons_self y ys)),
      ih (fun z hz => h z (List.mem_cons_of_mem y hz))]
    rfl

theorem insertCmp_avail (x : RawSabor) (P Z : List RawSabor)
    (hx : isAvail x = true) (hP : ∀ y ∈ P, isAvail y = true)
    (hZ : ∀ z ∈ Z, isAvail z = false) :
    insertCmp saborCmp x (P ++ Z) = P ++ x :: Z := by
  induction P with
  | nil =>
    cases Z with
    | nil => rfl
    | cons z zs =>
      simp only [List.nil_append, insertCmp]
      rw [if_pos]
      rw [saborCmp_avail_unavail x z hx (hZ z (List.mem_cons_self z zs))]
      omega
  | cons y ys ih =>
    simp only [List.cons_append, insertCmp]
    rw [if_neg]
    · exact congrArg (fun t => y :: t) (ih (fun q hq => hP q (List.mem_cons_of_mem y hq)))
    · rw [saborCmp_avail_avail x y hx (hP y (List.mem_cons_self y ys))]
      omega

theorem insertCmp_unavail (x : RawSabor) (l : List RawSabor)
    (hx : isAvail x = false) : insertCmp saborCmp x l = l ++ [x] :=
  insertCmp_append_of_forall saborCmp x l
    (fun y _ => saborCmp_unavail_not_lt x y hx)

theorem foldl_insert_split (l P Z : List RawSabor)
    (hP : ∀ y ∈ P, isAvail y = true) (hZ : ∀ z ∈ Z, isAvail z = false) :
    List.foldl (fun acc x => insertCmp saborCmp x acc) (P ++ Z) l
      = (P ++ l.filter isAvail) ++ (Z ++ l.filter (fun s => !(isAvail s))) := by
  induction l generalizing P Z with
  | nil => simp
  | cons x xs ih =>
    simp only [List.foldl_cons]
    cases hx : isAvail x with
    | true =>
      rw [insertCmp_avail x P Z hx hP hZ]
      have hrw : P ++ x :: Z = (P ++ [x]) ++ Z := by simp
      rw [hrw, ih (P ++ [x]) Z ?_ hZ]
      · simp [List.filter_cons, hx]
      · intro y hy
        rcases List.mem_append.mp hy with h1 | h1
        · exact hP y h1
        · rw [List.mem_singleton.mp h1]; exact hx
    | false =>
      rw [insertCmp_unavail x _ hx]
      have hrw : (P ++ Z) ++ [x] = P ++ (Z ++ [x]) := by simp
      rw [hrw, ih P (Z ++ [x]) hP ?_]
      · simp [List.filter_cons, hx]
      · intro z hz
        rcases List.mem_append.mp hz with h1 | h1
        · exact hZ z h1
        · rw [List.mem_singleton.mp h1]; exact hx

/-- The JS sort of the sabores branch is the stable partition: available
flavors first, sold-out flavors after, input order kept inside each class. -/
theorem jsSortStable_eq_split (l : List RawSabor) :
    jsSortStable saborCmp l
      = l.filter isAvail ++ l.filter (fun s => !(isAvail s)) := by
  have h := foldl_insert_split l [] [] (by simp) (by simp)
  simpa [jsSortStable] using h

theorem adjacentOk_allZero (Z : List RawSabor)
    (hZ : ∀ z ∈ Z, isAvail z = false) : adjacentOk Z = true := by
  induction Z with
  | nil => rfl
  | cons z zs ih =>
    cases zs with
    | nil => rfl
    | cons z2 zs2 =>
      have h2 : qtyOf z2 = 0 :=
        (isAvail_false_iff z2).mp (hZ z2 (List.mem_cons_of_mem z (List.mem_cons_self z2 zs2)))
      simp only [adjacentOk, h2, Bool.and_eq_true]
      refine ⟨by simp, ?_⟩
      have := ih (fun q hq => hZ q (List.mem_cons_of_mem z hq))
      simpa [adjacentOk] using this

theorem adjacentOk_split (P Z : List RawSabor)
    (hP : ∀ y ∈ P, isAvail y = true) (hZ : ∀ z ∈ Z, isAvail z = false) :
    adjacentOk (P ++ Z) = true := by
  induction P with
  | nil => simpa using adjacentOk_allZero Z hZ
  | cons p ps ih =>
    have hp : qtyOf p ≠ 0 := (isAvail_true_iff p).mp (hP p (List.mem_cons_self p ps))
    have ihp := ih (fun q hq => hP q (List.mem_cons_of_mem p hq))
    rw [List.cons_append]
    cases hps : ps ++ Z with
    | nil => rfl
    | cons q rest =>
      show adjacentOk (p :: q :: rest) = true
      simp only [adjacentOk, Bool.and_eq_true]
      refine ⟨by simp [hp], ?_⟩
      rw [← hps]
      exact ihp

theorem convSabor_idem (s : RawSabor) : convSabor (convSabor s) = convSabor s := by
  show RawSabor.mk
      (some (jsOrStr (some (jsOrStr s.name "Sem nome")) "Sem nome"))
      (some (jsOrStr (some (jsOrStr s.image "https://via.placeholder.com/400x300"))
        "https://via.placeholder.com/400x300"))
      (some (jsOrNat (some (jsOrNat s.quantity 0)) 0))
      (some (jsOrStr (some (jsOrStr s.description "")) ""))
    = convSabor s
  rw [jsOrStr_some_stable _ _ (by decide), jsOrStr_some_stable _ _ (by decide),
    jsOrNat_some_zero, jsOrStr_some_self_empty]
  rfl

theorem sortConv_idem (sabs : List RawSabor) :
    (jsSortStable saborCmp ((jsSortStable saborCmp sabs).map convSabor)).map convSabor
      = (jsSortStable saborCmp sabs).map convSabor := by
  have hcc : convSabor ∘ convSabor = convSabor := funext convSabor_idem
  have hAmem : ∀ y ∈ (sabs.filter isAvail).map convSabor, isAvail y = true := by
    intro y hy
    obtain ⟨z, hz, rfl⟩ := List.mem_map.mp hy
    rw [isAvail_convSabor]
    exact (List.mem_filter.mp hz).2
  have hBmem : ∀ y ∈ (sabs.filter (fun s => !(isAvail s))).map convSabor,
      isAvail y = false := by
    intro y hy
    obtain ⟨z, hz, rfl⟩ := List.mem_map.mp hy
    rw [isAvail_convSabor]
    have h2 := (List.mem_filter.mp hz).2
    simpa using h2
  have hAfilterA : ((sabs.filter isAvail).map convSabor).filter isAvail
      = (sabs.filter isAvail).map convSabor :=
    List.filter_eq_self.mpr hAmem
  have hBfilterA : ((sabs.filter (fun s => !(isAvail s))).map convSabor).filter isAvail
      = [] :=
    List.filter_eq_nil_iff.mpr (fun b hb => by simp [hBmem b hb])
  have hAfilterB : ((sabs.filter isAvail).map convSabor).filter (fun s => !(isAvail s))
      = [] :=
    List.filter_eq_nil_iff.mpr (fun a ha => by simp [hAmem a ha])
  have hBfilterB : ((sabs.filter (fun s => !(isAvail s))).map convSabor).filter
        (fun s => !(isAvail s))
      = (sabs.filter (fun s => !(isAvail s))).map convSabor :=
    List.filter_eq_self.mpr (fun b hb => by simp [hBmem b hb])
  have hmapA : ((sabs.filter isAvail).map convSabor).map convSabor
      = (sabs.filter isAvail).map convSabor := by
    rw [List.map_map, hcc]
  have hmapB : ((sabs.filter (fun s => !(isAvail s))).map convSabor).map convSabor
      = (sabs.filter (fun s => !(isAvail s))).map convSabor := by
    rw [List.map_map, hcc]
  rw [jsSortStable_eq_split sabs, List.map_append, jsSortStable_eq_split,
    List.filter_append, List.filter_append, hAfilterA, hBfilterA, hAfilterB, hBfilterB,
    List.append_nil, List.nil_append, List.map_append, hmapA, hmapB]

theorem normalizeProduct_idem (p : RawProduct) :
    normalizeProduct (normalizeProduct p) = normalizeProduct p := by
  obtain ⟨i, t, c, pr, d, st, dor, cols, sabs⟩ := p
  cases cols with
  | some cs => rfl
  | none =>
    cases sabs with
    | none => rfl
    | some ss =>
      show RawProduct.mk i t c pr d st dor none
          (some ((jsSortStable saborCmp
            ((jsSortStable saborCmp ss).map convSabor)).map convSabor))
        = RawProduct.mk i t c pr d st dor none
          (some ((jsSortStable saborCmp ss).map convSabor))
      rw [sortConv_idem]

theorem normOrder_idem (o : RawOrder) : normOrder (normOrder o) = normOrder o := by
  have hst := jsOrStr_some_stable o.status "pending" (by decide)
  show RawOrder.mk o.id o.date o.time none
      (jsOr none (jsOr o.customer_name o.customerName)) none
      (jsOr none (jsOr o.customer_phone o.customerPhone))
      (some ((some (o.items.getD [])).getD []))
      (some ((some (o.total.getD 0)).getD 0)) none
      (jsOr none (jsOr o.payment_method o.paymentMethod))
      (some (jsOrStr (some (jsOrStr o.status "pending")) "pending")) none
      (jsOr none (jsOr o.created_at o.createdAt))
    = normOrder o
  rw [hst]
  rfl

theorem jsOrStr_some_self (x : String) : jsOrStr (some x) x = x := by
  simp only [jsOrStr]
  split <;> simp_all

theorem jsOrStr_some_of_ne (x d : String) (hx : x ≠ "") : jsOrStr (some x) d = x := by
  simp only [jsOrStr]
  rw [if_neg hx]

theorem capitalize_ne_empty (s : String) (h : s ≠ "") : capitalize s ≠ "" := by
  cases hs : s.data with
  | nil => exact absurd (String.ext (hs.trans rfl)) h
  | cons c cs =>
    intro heq
    simp only [capitalize, hs] at heq
    have hd := congrArg String.data heq
    simp at hd

theorem append_ne_empty_left (a b : String) (h : a ≠ "") : a ++ b ≠ "" := by
  intro heq
  have hd := congrArg String.data heq
  rw [String.data_append] at hd
  have ha : a.data = [] := (List.append_eq_nil.mp hd).1
  exact h (String.ext (ha.trans rfl))

theorem normCat_fixpoint (c c2 : RawCat) (hne : c ≠ RawCat.str "")
    (h : normCat c = some c2) : normCat c2 = some c2 := by
  cases c with
  | str s =>
    have hs : s ≠ "" := fun h0 => hne (by rw [h0])
    simp only [normCat] at h
    obtain rfl := Option.some.inj h
    simp only [normCat]
    rw [if_neg hs, jsOrStr_some_self (capitalize s),
      jsOrStr_some_of_ne _ _ (append_ne_empty_left "Categoria de " s (by decide))]
  | obj i n d =>
    cases i with
    | none => simp [normCat] at h
    | some id0 =>
      by_cases hid : id0 = ""
      · simp [normCat, hid] at h
      · simp only [normCat] at h
        rw [if_neg hid] at h
        obtain rfl := Option.some.inj h
        simp only [normCat]
        rw [if_neg hid]
        have hn : jsOrStr n (capitalize id0) ≠ "" :=
          jsOrStr_ne_empty _ _ (capitalize_ne_empty id0 hid)
        have hd : jsOrStr d ("Categoria de " ++ jsOrStr n id0) ≠ "" :=
          jsOrStr_ne_empty _ _ (append_ne_empty_left _ _ (by decide))
        rw [jsOrStr_some_of_ne _ _ hn, jsOrStr_some_of_ne _ _ hd]
  | other => simp [normCat] at h

theorem filterMap_normCat_idem (l : List RawCat)
    (h : ∀ c ∈ l, c ≠ RawCat.str "") :
    (l.filterMap normCat).filterMap normCat = l.filterMap normCat := by
  induction l with
  | nil => rfl
  | cons c cs ih =>
    have hc := h c (List.mem_cons_self c cs)
    have ihcs := ih (fun q hq => h q (List.mem_cons_of_mem c hq))
    cases hnc : normCat c with
    | none => simp [List.filterMap_cons, hnc, ihcs]
    | some c2 =>
      simp [List.filterMap_cons, hnc, normCat_fixpoint c c2 hc hnc, ihcs]

/-- Claim C1 (amended: the element must take the sabores branch, i.e. also
have no colors array; an element carrying both a colors array and a sabores
array is handled by the colors branch, which does not partition).  For every
input array, every output element produced from an element having a sabores
array and no colors array has its flavors stably partitioned by availability,
with no adjacent sold-out/available pair, and with all four fields filled. -/
theorem claim1_prop (l : List RawProduct) :
    normalizeProducts (some l) = l.map normalizeProduct ∧
    ∀ p ∈ l, p.colors = none → ∀ sabs, p.sabores = some sabs →
      (normalizeProduct p).sabores = some ((specAvailFirst sabs).map convSabor) ∧
      adjacentOk ((specAvailFirst sabs).map convSabor) = true ∧
      ∀ s ∈ (specAvailFirst sabs).map convSabor,
        s.name.isSome ∧ s.image.isSome ∧ s.quantity.isSome ∧ s.description.isSome := by
  refine ⟨rfl, ?_⟩
  intro p _ hc sabs hs
  have hAmem : ∀ y ∈ (sabs.filter isAvail).map convSabor, isAvail y = true := by
    intro y hy
    obtain ⟨z, hz, rfl⟩ := List.mem_map.mp hy
    rw [isAvail_convSabor]
    exact (List.mem_filter.mp hz).2
  have hBmem : ∀ y ∈ (sabs.filter (fun s => !(isAvail s))).map convSabor,
      isAvail y = false := by
    intro y hy
    obtain ⟨z, hz, rfl⟩ := List.mem_map.mp hy
    rw [isAvail_convSabor]
    have h2 := (List.mem_filter.mp hz).2
    simpa using h2
  refine ⟨?_, ?_, ?_⟩
  · simp only [normalizeProduct, hc, hs]
    rw [jsSortStable_eq_split]
    rfl
  · rw [specAvailFirst, List.map_append]
    exact adjacentOk_split _ _ hAmem hBmem
  · intro s hs2
    obtain ⟨z, _, rfl⟩ := List.mem_map.mp hs2
    exact ⟨rfl, rfl, rfl, rfl⟩

/-- Claim C1 counterexample: an element that has a sabores array (and also a
colors array) is handled by the colors branch, and its output sabores
sequence has a sold-out entry immediately followed by an available one;
the availability-first invariant claimed for every element with a sabores
array fails. -/
theorem claim1_counterexample :
    c1cexProduct.sabores.isSome = true ∧
    (normalizeProducts (some [c1cexProduct])).map
      (fun p => adjacentOk (p.sabores.getD [])) = [false] := by
  decide

/-- Witness for claim C1 at a concrete two-flavor product. -/
theorem claim1_witness :
    (normalizeProduct c1wProduct).sabores
      = some ((specAvailFirst [c1wZero, c1wPos]).map convSabor) ∧
    adjacentOk ((specAvailFirst [c1wZero, c1wPos]).map convSabor) = true :=
  ⟨((claim1_prop [c1wProduct]).2 c1wProduct (List.mem_singleton.mpr rfl) rfl
      [c1wZero, c1wPos] rfl).1,
   ((claim1_prop [c1wProduct]).2 c1wProduct (List.mem_singleton.mpr rfl) rfl
      [c1wZero, c1wPos] rfl).2.1⟩

/-- Claim C2 (confirmed): every element with a colors array is mapped to one
flavor per color; a color with a sizes array gets the sum of its stocks
(missing stock counts 0), a color without sizes gets its direct quantity
(default 0); in particular Red with stocks 3 and 2 yields quantity 5. -/
theorem claim2_prop (l : List RawProduct) :
    normalizeProducts (some l) = l.map normalizeProduct ∧
    (∀ p ∈ l, ∀ cols, p.colors = some cols →
      (normalizeProduct p).sabores = some (cols.map convColor)) ∧
    (∀ c : RawColor, ∀ szs, c.sizes = some szs →
      (convColor c).quantity = some (szs.foldl (fun t s => t + jsOrNat s.stock 0) 0)) ∧
    (∀ c : RawColor, c.sizes = none →
      (convColor c).quantity = some (jsOrNat c.quantity 0)) ∧
    normalizeProducts (some [{ colors := some [c2redColor] }])
      = [{ colors := some [c2redColor], sabores := some [c2redFlavor] }] := by
  refine ⟨rfl, ?_, ?_, ?_, by decide⟩
  · intro p _ cols hc
    simp [normalizeProduct, hc]
  · intro c szs hsz
    simp [convColor, hsz]
  · intro c hsz
    simp [convColor, hsz]

/-- Witness for claim C2 at the Red-color example of the spec. -/
theorem claim2_witness :
    (normalizeProduct { colors := some [c2redColor] }).sabores
      = some [convColor c2redColor] ∧
    (convColor c2redColor).quantity = some 5 :=
  ⟨(claim2_prop [{ colors := some [c2redColor] }]).2.1 _
      (List.mem_singleton.mpr rfl) [c2redColor] rfl,
   (claim2_prop []).2.2.1 c2redColor [{ stock := some 3 }, { stock := some 2 }] rfl⟩

/-- Claim C10 (confirmed): the colors branch of normalizeProducts keeps the
original colors field next to the synthesized sabores sequence, the
synthesized sequence is the order-preserving image of the colors, and it is
not availability-partitioned; a sold-out entry can precede an available
one, as the concrete zero-then-positive example shows. -/
theorem claim10_prop (l : List RawProduct) :
    normalizeProducts (some l) = l.map normalizeProduct ∧
    (∀ p ∈ l, ∀ cols, p.colors = some cols →
      (normalizeProduct p).colors = some cols ∧
      (normalizeProduct p).sabores = some (cols.map convColor)) ∧
    ((normalizeProduct { colors := some [c10zeroColor, c10posColor] }).sabores.getD
      []).map qtyOf = [0, 5] := by
  refine ⟨rfl, ?_, by decide⟩
  intro p _ cols hc
  constructor
  · simp [normalizeProduct, hc]
  · simp [normalizeProduct, hc]

/-- Witness for claim C10 at a concrete two-color product. -/
theorem claim10_witness :
    (normalizeProduct c10wProduct).colors = some [c10zeroColor, c10posColor] ∧
    (normalizeProduct c10wProduct).sabores
      = some ([c10zeroColor, c10posColor].map convColor) :=
  (claim10_prop [c10wProduct]).2.1 c10wProduct (List.mem_singleton.mpr rfl)
    [c10zeroColor, c10posColor] rfl

/-- Claim C3 (amended: normalizeProducts and normalizeOrders are idempotent
on every input; normalizeCategories is idempotent on every array that does
not contain the empty string as an element; an empty-string element
normalizes to a category whose id is the empty string, which the falsy-id
filter of a second pass drops). -/
theorem claim3_prop :
    (∀ A : Option (List RawProduct),
      normalizeProducts (some (normalizeProducts A)) = normalizeProducts A) ∧
    (∀ A : Option (List RawOrder),
      normalizeOrders (some (normalizeOrders A)) = normalizeOrders A) ∧
    (∀ A : Option (List RawCat), (∀ c ∈ A.getD [], c ≠ RawCat.str "") →
      normalizeCategories (some (normalizeCategories A)) = normalizeCategories A) := by
  refine ⟨?_, ?_, ?_⟩
  · intro A
    cases A with
    | none => rfl
    | some l =>
      show (l.map normalizeProduct).map normalizeProduct = l.map normalizeProduct
      rw [List.map_map, show normalizeProduct ∘ normalizeProduct = normalizeProduct
        from funext normalizeProduct_idem]
  · intro A
    cases A with
    | none => rfl
    | some l =>
      show (l.map normOrder).map normOrder = l.map normOrder
      rw [List.map_map, show normOrder ∘ normOrder = normOrder
        from funext normOrder_idem]
  · intro A h
    cases A with
    | none => rfl
    | some l =>
      exact filterMap_normCat_idem l (fun c hc => h c hc)

/-- Claim C3 counterexample: normalizeCategories is not idempotent on the
one-element array holding the empty string; the first pass produces a
category with empty id, the second pass drops it. -/
theorem claim3_counterexample :
    normalizeCategories (some (normalizeCategories (some [RawCat.str ""])))
      ≠ normalizeCategories (some [RawCat.str ""]) := by
  decide

/-- Witness for claim C3 at a concrete non-empty category string. -/
theorem claim3_witness :
    normalizeCategories (some (normalizeCategories (some [RawCat.str "cerveja"])))
      = normalizeCategories (some [RawCat.str "cerveja"]) :=
  claim3_prop.2.2 (some [RawCat.str "cerveja"]) (by decide)

/-- Claim C4 (confirmed): when the credentials lookup fails with a
does-not-exist error or with the no-row code PGRST116, login falls back to
the hardcoded pair: admin with admin123 gets the fixed token, any other
pair gets 401 Unauthorized with no token. -/
theorem claim4_prop (username password msg code : String)
    (hu : username ≠ "") (hp : password ≠ "")
    (hmc : strIncludes msg "does not exist" = true ∨ code = "PGRST116") :
    loginHandler username password (.lerr msg code)
      = (if username = "admin" ∧ password = "admin123"
         then .ok "authenticated_admin_token" "admin"
         else .unauthorized "Credenciais inválidas") := by
  have h1 : ¬(username = "" ∨ password = "") := not_or.mpr ⟨hu, hp⟩
  have hcond : (strIncludes msg "does not exist" || code == "PGRST116") = true := by
    rcases hmc with h | h <;> simp [h]
  by_cases hadm : username = "admin" ∧ password = "admin123"
  · obtain ⟨ha, hb⟩ := hadm
    subst ha
    subst hb
    simp [loginHandler, hcond]
  · have hb : (username == "admin" && password == "admin123") = false := by
      cases hx : (username == "admin" && password == "admin123") with
      | false => rfl
      | true =>
        exact absurd (by simpa [Bool.and_eq_true, beq_iff_eq] using hx) hadm
    simp [loginHandler, h1, hcond, hb, hadm]

/-- Witness for claim C4 at the hardcoded admin pair and a missing-table
error. -/
theorem claim4_witness :
    loginHandler "admin" "admin123"
        (.lerr "relation admin_credentials does not exist" "")
      = .ok "authenticated_admin_token" "admin" := by
  have h := claim4_prop "admin" "admin123"
    "relation admin_credentials does not exist" "" (by decide) (by decide)
    (Or.inl (by decide))
  rw [if_pos ⟨rfl, rfl⟩] at h
  exact h

/-- Claim C5 (confirmed): when a credential row is found, login succeeds
exactly when the supplied password equals the stored plaintext password or
its transform (base64 then reverse) equals the stored encrypted password;
otherwise it is a 401. -/
theorem claim5_prop (username password : String) (row : CredRow)
    (hu : username ≠ "") (hp : password ≠ "") :
    (loginHandler username password (.lfound row)
        = .ok "authenticated_admin_token" username
      ↔ (password = row.password ∨ simpleEncrypt password = row.encrypted_password)) ∧
    (¬(password = row.password ∨ simpleEncrypt password = row.encrypted_password) →
      loginHandler username password (.lfound row)
        = .unauthorized "Credenciais inválidas") := by
  have h1 : ¬(username = "" ∨ password = "") := not_or.mpr ⟨hu, hp⟩
  have hfalse : ¬(password = row.password ∨
      simpleEncrypt password = row.encrypted_password) →
      (simpleEncrypt password == row.encrypted_password
        || password == row.password) = false := by
    intro hnor
    cases hx : (simpleEncrypt password == row.encrypted_password
        || password == row.password) with
    | false => rfl
    | true =>
      have hor : simpleEncrypt password = row.encrypted_password
          ∨ password = row.password := by
        simpa [Bool.or_eq_true, beq_iff_eq] using hx
      exact absurd hor.symm hnor
  constructor
  · constructor
    · intro heq
      by_contra hnor
      rw [show loginHandler username password (.lfound row)
          = .unauthorized "Credenciais inválidas" by
        simp [loginHandler, h1, hfalse hnor]] at heq
      exact absurd heq (by simp)
    · intro hor
      have hb : (simpleEncrypt password == row.encrypted_password
          || password == row.password) = true := by
        rcases hor with h | h <;> simp [h]
      simp [loginHandler, h1, hb]
  · intro hnor
    simp [loginHandler, h1, hfalse hnor]

/-- Witness for claim C5 at a row whose plaintext password matches. -/
theorem claim5_witness :
    loginHandler "admin" "admin123" (.lfound c5wRow)
      = .ok "authenticated_admin_token" "admin" :=
  (claim5_prop "admin" "admin123" c5wRow (by decide) (by decide)).1.mpr
    (Or.inl rfl)

theorem jsOr_some_of_ne (s : String) (b : Option String) (h : s ≠ "") :
    jsOr (some s) b = some s := by
  simp [jsOr, h]

theorem jsOr_falsy (a b : Option String) (h : a = none ∨ a = some "") :
    jsOr a b = b := by
  rcases h with rfl | rfl <;> simp [jsOr]

/-- Claim C9 (amended: the storage-shape snake_case field is preferred when
it is present and non-empty, i.e. truthy; a present-but-empty snake_case
field falls through to the camelCase field, contrary to a plain reading of
"preferring when both present").  total is the parse result defaulting to 0,
items defaults to the empty list, status defaults to pending when absent or
empty, id, date and time pass through. -/
theorem claim9_prop (l : List RawOrder) :
    normalizeOrders (some l) = l.map normOrder ∧
    ∀ o ∈ l,
      (∀ s, o.customer_name = some s → s ≠ "" →
        (normOrder o).customerName = some s) ∧
      ((o.customer_name = none ∨ o.customer_name = some "") →
        (normOrder o).customerName = o.customerName) ∧
      (∀ s, o.customer_phone = some s → s ≠ "" →
        (normOrder o).customerPhone = some s) ∧
      ((o.customer_phone = none ∨ o.customer_phone = some "") →
        (normOrder o).customerPhone = o.customerPhone) ∧
      (∀ s, o.payment_method = some s → s ≠ "" →
        (normOrder o).paymentMethod = some s) ∧
      ((o.payment_method = none ∨ o.payment_method = some "") →
        (normOrder o).paymentMethod = o.paymentMethod) ∧
      (∀ s, o.created_at = some s → s ≠ "" →
        (normOrder o).createdAt = some s) ∧
      ((o.created_at = none ∨ o.created_at = some "") →
        (normOrder o).createdAt = o.createdAt) ∧
      (normOrder o).total = some (o.total.getD 0) ∧
      (normOrder o).items = some (o.items.getD []) ∧
      ((o.status = none ∨ o.status = some "") →
        (normOrder o).status = some "pending") ∧
      (∀ s, o.status = some s → s ≠ "" → (normOrder o).status = some s) ∧
      (normOrder o).id = o.id ∧ (normOrder o).date = o.date ∧
      (normOrder o).time = o.time := by
  refine ⟨rfl, ?_⟩
  intro o _
  refine ⟨?_, ?_, ?_, ?_, ?_, ?_, ?_, ?_, rfl, rfl, ?_, ?_, rfl, rfl, rfl⟩
  · intro s hs hne
    show jsOr o.customer_name o.customerName = some s
    rw [hs]
    exact jsOr_some_of_ne s _ hne
  · intro hf
    show jsOr o.customer_name o.customerName = o.customerName
    exact jsOr_falsy _ _ hf
  · intro s hs hne
    show jsOr o.customer_phone o.customerPhone = some s
    rw [hs]
    exact jsOr_some_of_ne s _ hne
  · intro hf
    show jsOr o.customer_phone o.customerPhone = o.customerPhone
    exact jsOr_falsy _ _ hf
  · intro s hs hne
    show jsOr o.payment_method o.paymentMethod = some s
    rw [hs]
    exact jsOr_some_of_ne s _ hne
  · intro hf
    show jsOr o.payment_method o.paymentMethod = o.paymentMethod
    exact jsOr_falsy _ _ hf
  · intro s hs hne
    show jsOr o.created_at o.createdAt = some s
    rw [hs]
    exact jsOr_some_of_ne s _ hne
  · intro hf
    show jsOr o.created_at o.createdAt = o.createdAt
    exact jsOr_falsy _ _ hf
  · intro hf
    show some (jsOrStr o.status "pending") = some "pending"
    rcases hf with h | h <;> rw [h] <;> rfl
  · intro s hs hne
    show some (jsOrStr o.status "pending") = some s
    rw [hs, jsOrStr_some_of_ne s _ hne]

/-- Claim C9 counterexample: both name fields present, yet the output takes
the camelCase value because the snake_case one is empty (falsy); the
storage-shape field is not preferred merely for being present. -/
theorem claim9_counterexample :
    c9cexOrder.customer_name = some "" ∧ c9cexOrder.customerName = some "Bob" ∧
    (normalizeOrders (some [c9cexOrder])).map (fun r => r.customerName)
      = [some "Bob"] ∧
    (normOrder c9cexOrder).customerName ≠ c9cexOrder.customer_name := by
  decide

/-- Witness for claim C9 at a concrete order. -/
theorem claim9_witness :
    (normOrder c9wOrder).customerName = some "Ana" ∧
    (normOrder c9wOrder).total = some 7 ∧
    (normOrder c9wOrder).status = some "pending" := by
  have h := (claim9_prop [c9wOrder]).2 c9wOrder (List.mem_singleton.mpr rfl)
  exact ⟨h.1 "Ana" rfl (by decide), h.2.2.2.2.2.2.2.2.1,
    h.2.2.2.2.2.2.2.2.2.2.1 (Or.inl rfl)⟩

theorem assignIds_proj (n : Int) (l : List RawProduct) :
    (assignIds n l).map projRow = l.map toRowData := by
  induction l generalizing n with
  | nil => rfl
  | cons p ps ih => simp [assignIds, projRow, toInsertRow, toRowData, ih]

/-- Claim C6 (amended: after a successful authorized delete, every product
of the category has been reassigned to default and no category row with the
deleted id remains; the further consequence that no product references the
deleted id holds whenever the deleted id is not itself "default" — deleting
the category "default" leaves its products referencing the deleted id). -/
theorem claim6_prop (h cid : String) (db : DB)
    (hauth : authorized (some h) = true) (hcid : cid ≠ "") :
    (deleteCategoryHandler (some h) (some cid) db).1.status = 200 ∧
    (deleteCategoryHandler (some h) (some cid) db).2.products
      = db.products.map (fun p =>
          if p.category == some cid then { p with category := some "default" } else p) ∧
    (∀ c ∈ (deleteCategoryHandler (some h) (some cid) db).2.categories, c.id ≠ cid) ∧
    (cid ≠ "default" →
      ∀ p ∈ (deleteCategoryHandler (some h) (some cid) db).2.products,
        p.category ≠ some cid) := by
  have hred : deleteCategoryHandler (some h) (some cid) db
      = ({ status := 200, message := some ("Categoria excluída com sucesso! "
            ++ toString (db.products.filter (fun p => p.category == some cid)).length
            ++ " produtos foram movidos para categoria padrão.") },
         { db with
             products :=
               if 0 < (db.products.filter (fun p => p.category == some cid)).length then
                 db.products.map (fun p =>
                   if p.category == some cid then { p with category := some "default" }
                   else p)
               else db.products,
             categories := db.categories.filter (fun c => !(c.id == cid)) }) := by
    simp [deleteCategoryHandler, hauth, hcid]
  refine ⟨?_, ?_, ?_, ?_⟩
  · rw [hred]
  · rw [hred]
    show (if 0 < (db.products.filter (fun p => p.category == some cid)).length then
        db.products.map (fun p =>
          if p.category == some cid then { p with category := some "default" } else p)
      else db.products)
      = db.products.map (fun p =>
          if p.category == some cid then { p with category := some "default" } else p)
    by_cases hl : 0 < (db.products.filter (fun p => p.category == some cid)).length
    · rw [if_pos hl]
    · rw [if_neg hl]
      have hempty : db.products.filter (fun p => p.category == some cid) = [] :=
        List.length_eq_zero.mp (Nat.eq_zero_of_not_pos hl)
      have hnone : ∀ p ∈ db.products, (p.category == some cid) = false := by
        intro p hp
        cases hx : (p.category == some cid) with
        | false => rfl
        | true =>
          have hmem : p ∈ db.products.filter (fun p => p.category == some cid) :=
            List.mem_filter.mpr ⟨hp, hx⟩
          rw [hempty] at hmem
          exact absurd hmem (List.not_mem_nil p)
      have hmapid : db.products.map (fun p =>
          if p.category == some cid then { p with category := some "default" } else p)
          = db.products.map id :=
        List.map_congr_left (fun p hp => by simp [hnone p hp])
      rw [hmapid, List.map_id]
  · rw [hred]
    intro c hc
    have h2 := (List.mem_filter.mp hc).2
    simp at h2
    exact h2
  · intro hdef p hp
    rw [hred] at hp
    simp only at hp
    by_cases hl : 0 < (db.products.filter (fun p => p.category == some cid)).length
    · rw [if_pos hl] at hp
      obtain ⟨q, _, rfl⟩ := List.mem_map.mp hp
      by_cases hqc : (q.category == some cid) = true
      · rw [if_pos hqc]
        intro he
        exact hdef (Option.some.inj he).symm
      · rw [if_neg hqc]
        intro he
        exact hqc (by rw [he]; simp)
    · rw [if_neg hl] at hp
      have hempty : db.products.filter (fun p => p.category == some cid) = [] :=
        List.length_eq_zero.mp (Nat.eq_zero_of_not_pos hl)
      intro he
      have hmem : p ∈ db.products.filter (fun p => p.category == some cid) :=
        List.mem_filter.mpr ⟨hp, by rw [he]; simp⟩
      rw [hempty] at hmem
      exact absurd hmem (List.not_mem_nil p)

/-- Claim C6 counterexample: an authorized, successful delete of the
category id "default" leaves a product whose category still equals the
deleted id, although the category row is gone. -/
theorem claim6_counterexample :
    (deleteCategoryHandler (some "Bearer authenticated_admin_token")
      (some "default") c6db).1.status = 200 ∧
    (deleteCategoryHandler (some "Bearer authenticated_admin_token")
      (some "default") c6db).2.categories = [] ∧
    (deleteCategoryHandler (some "Bearer authenticated_admin_token")
      (some "default") c6db).2.products.map (fun p => p.category)
      = [some "default"] := by
  decide

/-- Witness for claim C6 at a concrete store with two referencing
products. -/
theorem claim6_witness :
    (deleteCategoryHandler (some "Bearer authenticated_admin_token")
      (some "sucos") c6wdb).1.status = 200 ∧
    (deleteCategoryHandler (some "Bearer authenticated_admin_token")
      (some "sucos") c6wdb).2.products
      = c6wdb.products.map (fun p =>
          if p.category == some "sucos" then { p with category := some "default" }
          else p) :=
  ⟨(claim6_prop "Bearer authenticated_admin_token" "sucos" c6wdb
      (by decide) (by decide)).1,
   (claim6_prop "Bearer authenticated_admin_token" "sucos" c6wdb
      (by decide) (by decide)).2.1⟩

/-- Claim C7 (amended: the delete step removes every row whose id is not 0,
not every row; on a table with no id-0 row — in particular any table whose
ids were store-assigned starting from 1 — a successful authorized save
leaves exactly the normalized supplied set, column for column). -/
theorem claim7_prop (h : String) (input : Option (List RawProduct)) (db : DB)
    (hauth : authorized (some h) = true) (hids : ∀ r ∈ db.products, r.id ≠ 0) :
    (saveProductsHandler (some h) input db).1.status = 200 ∧
    (saveProductsHandler (some h) input db).2.products.map projRow
      = (normalizeProducts input).map toRowData := by
  have hkept : db.products.filter (fun r => !(r.id != 0)) = [] := by
    apply List.filter_eq_nil_iff.mpr
    intro r hr
    simp [hids r hr]
  by_cases hlen : 0 < (normalizeProducts input).length
  · constructor
    · simp [saveProductsHandler, hauth, hlen]
    · simp [saveProductsHandler, hauth, hlen, hkept, assignIds_proj]
  · have hnil : normalizeProducts input = [] :=
      List.length_eq_zero.mp (Nat.eq_zero_of_not_pos hlen)
    constructor
    · simp [saveProductsHandler, hauth, hlen]
    · simp [saveProductsHandler, hauth, hlen, hkept, hnil]

/-- Claim C7 counterexample: with a pre-existing row of id 0, an authorized
successful save of the empty set does not delete every row — the table is
not the normalized supplied set afterwards. -/
theorem claim7_counterexample :
    (saveProductsHandler (some "Bearer authenticated_admin_token")
      (some []) c7db).1.status = 200 ∧
    normalizeProducts (some ([] : List RawProduct)) = [] ∧
    (saveProductsHandler (some "Bearer authenticated_admin_token")
      (some []) c7db).2.products = [c7ghostRow] := by
  decide

/-- Witness for claim C7 at a store whose single row has a non-zero id. -/
theorem claim7_witness :
    (saveProductsHandler (some "Bearer authenticated_admin_token")
      (some c7wInput) c7wdb).1.status = 200 ∧
    (saveProductsHandler (some "Bearer authenticated_admin_token")
      (some c7wInput) c7wdb).2.products.map projRow
      = (normalizeProducts (some c7wInput)).map toRowData :=
  claim7_prop "Bearer authenticated_admin_token" (some c7wInput) c7wdb
    (by decide) (by decide)

/-- Claim C8 (amended, scoped to the modeled handlers: the order-submission
write handler POST /api/orders surfaces every store error — missing-table
class or not — as a 500 whose message is the underlying error's message
concatenated to its fixed operation-context prefix; the three read handlers
GET /api/products, GET /api/categories and GET /api/orders never surface a
store error: each answers any store error with a successful 200 response
carrying no error message and fallback sample data for the missing-table
class on products and categories, the empty list otherwise). -/
theorem claim8_prop (msg : String) :
    (∀ od : RawOrder, truthyStr od.customerName = true →
      postOrdersHandler (some od) (.err msg)
        = { status := 500, error := some ("Erro ao salvar pedido: " ++ msg),
            success := false, message := none, orderId := none }) ∧
    (getProductsHandler (.err msg)).status = 200 ∧
    (getProductsHandler (.err msg)).error = none ∧
    (getProductsHandler (.err msg)).products
      = (if strIncludes msg "does not exist" then sampleNoTable else []) ∧
    (getCategoriesHandler (.err msg)).status = 200 ∧
    (getCategoriesHandler (.err msg)).error = none ∧
    (getCategoriesHandler (.err msg)).categories
      = (if strIncludes msg "does not exist" then sampleCatsNoTable else []) ∧
    getOrdersHandler (.err msg)
      = { status := 200, error := none, orders := [] } := by
  constructor
  · intro od hod
    simp [postOrdersHandler, hod]
  by_cases hmc : strIncludes msg "does not exist" = true
  · refine ⟨?_, ?_, ?_, ?_, ?_, ?_, ?_⟩ <;>
      simp [getProductsHandler, getCategoriesHandler, getOrdersHandler, hmc]
  · have hmc2 : strIncludes msg "does not exist" = false :=
      Bool.eq_false_iff.mpr hmc
    refine ⟨?_, ?_, ?_, ?_, ?_, ?_, ?_⟩ <;>
      simp [getProductsHandler, getCategoriesHandler, getOrdersHandler, hmc2]

/-- Claim C8 counterexample: on a store error that is not of the
missing-table class, GET /api/products answers 200 with an empty product
list and no error message — not a 500 carrying the prefixed message. -/
theorem claim8_counterexample :
    (getProductsHandler (.err "boom")).status = 200 ∧
    (getProductsHandler (.err "boom")).error = none ∧
    (getProductsHandler (.err "boom")).products = [] := by
  decide

/-- Witness for claim C8 at a concrete non-missing-table error message. -/
theorem claim8_witness :
    postOrdersHandler (some c8wOrder) (.err "falha de rede")
      = { status := 500,
          error := some ("Erro ao salvar pedido: " ++ "falha de rede"),
          success := false, message := none, orderId := none } ∧
    getOrdersHandler (.err "falha de rede")
      = { status := 200, error := none, orders := [] } :=
  ⟨(claim8_prop "falha de rede").1 c8wOrder (by decide),
   (claim8_prop "falha de rede").2.2.2.2.2.2.2⟩

end Tapioca
